import Mathlib

/-!
Verification of the simple-realtime-console WebRTC core.

The development shallowly embeds two parts of the repository:

* the Signal Normalizer (`normalizeArray`, `normalizeFrequencyData` from the
  wave-renderer module), embedded over exact rationals `ℚ` in place of IEEE
  doubles — the verified properties (bucket counts, bounds, monotonicity,
  endpoint preservation) are exact-arithmetic statements;
* the Session Manager / Event Bus (`connect`, `disconnect`, `sendEvent`,
  `setIsMuted` and the data-channel message listener from the
  `useRealtimeWebRTC` hook), embedded as explicit state passing over a
  `SessionState` record.  Browser effects that the code merely consults
  (fetch responses, microphone permission, the data channel's readyState)
  are passed in as an explicit environment; `JSON.parse` is modelled as an
  `Except`-valued decode whose failure value stands for the thrown
  `SyntaxError`.
-/

/- ### Signal Normalizer -/

/-- Largest absolute value occurring in the sample buffer (`0` for the empty
buffer).  Used to state the range bound on averaging-mode downsampling. -/
def absMax (data : List ℚ) : ℚ :=
  (data.map (fun x => |x|)).foldr max 0

/-- The set of input indices that the downsampling loop of `normalizeArray`
assigns to output bucket `k`: all `i < n` with `⌊i * m / n⌋ = k` (the source
computes `Math.floor(i * (m / n))`, which over exact arithmetic is natural
division `i * m / n`). -/
def bucket (n m k : ℕ) : Finset ℕ :=
  (Finset.range n).filter (fun i => i * m / n = k)

/-- State of the downsampling loop of `normalizeArray` after processing the
input indices `0, …, i-1`: the accumulator array `result` and the occupancy
array `count`, both total functions from bucket index.  `result.fill(0)` and
the zero-initialised `count` give the base case; each step adds `|data[i]|`
into (peak mode: maxes into) bucket `⌊i*m/n⌋` and bumps its count, exactly as
the loop body does. -/
def downsampleLoop (data : List ℚ) (m : ℕ) (downsamplePeaks : Bool) :
    ℕ → (ℕ → ℚ) × (ℕ → ℕ)
  | 0 => (fun _ => 0, fun _ => 0)
  | i + 1 =>
    let p := downsampleLoop data m downsamplePeaks i
    let idx := i * m / data.length
    let r' :=
      if downsamplePeaks then
        Function.update p.1 idx (max (p.1 idx) |data.getD i 0|)
      else
        Function.update p.1 idx (p.1 idx + |data.getD i 0|)
    (r', Function.update p.2 idx (p.2 idx + 1))

/-- Downsampling branch of `normalizeArray` (`m ≤ n`): run the loop over all
`n` input samples, then in averaging mode divide each bucket's accumulated
sum by its occupancy count (peak mode returns the accumulator directly). -/
def normalizeArrayDown (data : List ℚ) (m : ℕ) (downsamplePeaks : Bool) :
    List ℚ :=
  let p := downsampleLoop data m downsamplePeaks data.length
  if downsamplePeaks then (List.range m).map p.1
  else (List.range m).map (fun k => p.1 k / (p.2 k : ℚ))

/-- Upsampling branch of `normalizeArray` (`m > n`): output index `i` maps to
the fractional input position `i * (n - 1) / (m - 1)`; `low`/`high` are its
floor/ceiling and `t` the fractional part; the right boundary clamps to the
final sample. -/
def normalizeArrayUp (data : List ℚ) (m : ℕ) : List ℚ :=
  (List.range m).map (fun (i : ℕ) =>
    let n := data.length
    let index : ℚ := (i : ℚ) * ((n : ℚ) - 1) / ((m : ℚ) - 1)
    let low := (⌊index⌋).toNat
    let high := (⌈index⌉).toNat
    let t : ℚ := index - (low : ℚ)
    if n ≤ high then data.getD (n - 1) 0
    else data.getD low 0 * (1 - t) + data.getD high 0 * t)

/-- `normalizeArray` from the wave-renderer module: resample `data` to exactly
`m` buckets, downsampling (peak-keeping or averaging) when `m ≤ n` and
linearly interpolating when `m > n`.  The memoization path returns a
previously computed array unchanged and is omitted: it has no effect on the
computed values. -/
def normalizeArray (data : List ℚ) (m : ℕ) (downsamplePeaks : Bool) :
    List ℚ :=
  if m ≤ data.length then normalizeArrayDown data m downsamplePeaks
  else normalizeArrayUp data m

/-- Per-sample body of `normalizeFrequencyData`: clamp the decibel value into
`[-100, -30]`, rescale linearly to `[0,1]`, and square. -/
def normalizeFrequencySample (x : ℚ) : ℚ :=
  let minDb : ℚ := -100
  let maxDb : ℚ := -30
  let db := max minDb (min maxDb x)
  ((db - minDb) / (maxDb - minDb)) ^ 2

/-- `normalizeFrequencyData` from the wave-renderer module, applied to the
whole sample buffer. -/
def normalizeFrequencyData (data : List ℚ) : List ℚ :=
  data.map normalizeFrequencySample

/- ### Session Manager / Event Bus -/

/-- JSON values carried over the auxiliary data channel. -/
inductive Json where
  | null : Json
  | bool : Bool → Json
  | num : ℚ → Json
  | str : String → Json
  | arr : List Json → Json
  | obj : List (String × Json) → Json

/-- Direction tag recorded on each observable protocol event. -/
inductive EventSource where
  | client : EventSource
  | server : EventSource
deriving DecidableEq

/-- One entry of the observable event sequence (`RealtimeEvent` in the
source): arrival/departure time, direction tag, decoded event payload. -/
structure RealtimeEvent where
  time : ℕ
  source : EventSource
  event : Json

/-- The `readyState` of an `RTCDataChannel`, consulted before sends. -/
inductive DCReadyState where
  | connecting : DCReadyState
  | openState : DCReadyState
  | closing : DCReadyState
  | closed : DCReadyState
deriving DecidableEq

/-- State owned by the `useRealtimeWebRTC` hook (plus observability fields).

* `peerConnection` / `dataChannel` model `peerConnectionRef` /
  `dataChannelRef` (`some id` = a live handle, `none` = a `null` ref);
* `isConnected`, `isMuted` are the two `useState` booleans;
* `localTracks` records the `enabled` flag of each local audio track attached
  to the current transport (tracks are created enabled and no code in the
  repository ever writes `track.enabled`);
* `realtimeEvents` is the append-only observable event sequence;
* `channelOut` records every payload passed to `dc.send`;
* `handlerCalls` logs every invocation of a registered tool handler
  (`tools[i].fn`) with its argument — the embedded operations extend it
  exactly where the source invokes a handler;
* `pcCreated` counts executions of `new RTCPeerConnection()`. -/
structure SessionState where
  peerConnection : Option ℕ
  dataChannel : Option ℕ
  isConnected : Bool
  isMuted : Bool
  localTracks : List Bool
  realtimeEvents : List RealtimeEvent
  channelOut : List Json
  handlerCalls : List (String × Json)
  pcCreated : ℕ

/-- The session state before any interaction: both refs `null`, flags false,
all sequences empty. -/
def initialState : SessionState :=
  { peerConnection := none
    dataChannel := none
    isConnected := false
    isMuted := false
    localTracks := []
    realtimeEvents := []
    channelOut := []
    handlerCalls := []
    pcCreated := 0 }

/-- Outcomes of the external effects a single `connect()` run consults:
whether the credential fetch and the SDP negotiation responses were `ok`,
whether microphone access was granted (and how many audio tracks it yields),
the ids of the freshly created peer connection and data channel, the data
channel's `readyState` at the post-answer configuration check, and the
configuration payload inputs. -/
structure ConnectEnv where
  fetchOk : Bool
  sdpOk : Bool
  micOk : Bool
  micTrackCount : ℕ
  pcId : ℕ
  dcId : ℕ
  dcReadyAtConfig : DCReadyState
  instructionsText : String
  toolSchemas : List Json

/-- The initial `session.update` configuration event sent once the channel is
open: composed instructions text and the registered tool schemas. -/
def sessionUpdateEvent (instr : String) (schemas : List Json) : Json :=
  Json.obj [("type", Json.str "session.update"),
            ("session", Json.obj [("instructions", Json.str instr),
                                  ("tools", Json.arr schemas)])]

/-- `disconnect` from `useRealtimeWebRTC`: close the channel and the
transport (no further modelled effect), null both refs, clear the connected
flag.  Nothing else is touched. -/
def disconnect (st : SessionState) : SessionState :=
  { st with peerConnection := none, dataChannel := none, isConnected := false }

/-- `connect` from `useRealtimeWebRTC`, step for step:

1. no-op if a transport handle is already held;
2. credential fetch — a non-`ok` response throws, and the `catch` runs
   `disconnect()` (no transport was created);
3. create the peer connection and the `oai-events` data channel, storing both
   refs;
4. request microphone access — on success the granted audio tracks (enabled)
   are attached to the transport; denial is swallowed and non-fatal;
5. SDP negotiation — a non-`ok` response throws into the same `catch`, which
   tears everything down via `disconnect()`;
6. mark connected;
7. if the channel's `readyState` is `"open"` at this point, send the single
   `session.update` configuration event (via `dc.send`, not recorded into
   `realtimeEvents`). -/
def connect (env : ConnectEnv) (st : SessionState) : SessionState :=
  if st.peerConnection.isSome then st
  else if env.fetchOk = false then disconnect st
  else
    let st1 : SessionState :=
      { st with peerConnection := some env.pcId
                pcCreated := st.pcCreated + 1
                dataChannel := some env.dcId }
    let st2 : SessionState :=
      if env.micOk then
        { st1 with localTracks := List.replicate env.micTrackCount true }
      else st1
    if env.sdpOk = false then disconnect st2
    else
      let st3 : SessionState := { st2 with isConnected := true }
      if env.dcReadyAtConfig = DCReadyState.openState then
        { st3 with channelOut :=
            st3.channelOut ++
              [sessionUpdateEvent env.instructionsText env.toolSchemas] }
      else st3

/-- `sendEvent` from `useRealtimeWebRTC`: if the channel ref is non-null and
its `readyState` is `"open"` (`rs` is the readyState observed at call time),
send the payload and append a `client`-tagged entry to the observable event
sequence; otherwise return with no effect of any kind. -/
def sendEvent (st : SessionState) (rs : DCReadyState) (now : ℕ)
    (event : Json) : SessionState :=
  if st.dataChannel.isSome = true ∧ rs = DCReadyState.openState then
    { st with channelOut := st.channelOut ++ [event]
              realtimeEvents := st.realtimeEvents ++
                [{ time := now, source := EventSource.client, event := event }] }
  else st

/-- The `setIsMuted` state setter.  In the entire repository this is the only
code that reacts to the mute flag: it stores the boolean (the UI reads it for
the button label) and nothing more — in particular no `track.enabled` write
exists anywhere. -/
def setIsMuted (b : Bool) (st : SessionState) : SessionState :=
  { st with isMuted := b }

/-- The data-channel `message` listener installed by `connect`:
`JSON.parse(e.data)` is modelled by the `payload : Except Unit Json` argument
(`Except.error` = the parse threw).  A decode failure propagates out of the
listener uncaught; a decoded event is appended to the observable sequence
tagged `server`.  The listener contains no other code: it inspects neither
`event.type` nor `event.name` and never invokes a registered tool handler, so
`handlerCalls` is never extended. -/
def dataChannelMessage (now : ℕ) (st : SessionState)
    (payload : Except Unit Json) : Except Unit SessionState :=
  match payload with
  | Except.error e => Except.error e
  | Except.ok ev =>
      Except.ok { st with realtimeEvents := st.realtimeEvents ++
        [{ time := now, source := EventSource.server, event := ev }] }

/-- A representative established-session state: live transport and channel,
connected, one enabled local audio track, no events yet. -/
def connectedState : SessionState :=
  { peerConnection := some 1
    dataChannel := some 2
    isConnected := true
    isMuted := false
    localTracks := [true]
    realtimeEvents := []
    channelOut := []
    handlerCalls := []
    pcCreated := 1 }

/-- The inbound function-call-completion event of the spec's `set_memory`
scenario: `type: "response.function_call_arguments.done"`,
`name: "set_memory"`, `arguments: "\x7b\"key\":\"city\",\"value\":\"nyc\"\x7d"`. -/
def setMemoryCallEvent : Json :=
  Json.obj [("type", Json.str "response.function_call_arguments.done"),
            ("name", Json.str "set_memory"),
            ("arguments", Json.str "\x7b\"key\":\"city\",\"value\":\"nyc\"\x7d")]

/-- A representative outbound protocol event (`response.create`, as sent by
the Force Reply button). -/
def responseCreateEvent : Json :=
  Json.obj [("type", Json.str "response.create")]

/-- A connect environment in which every external effect succeeds. -/
def okEnv : ConnectEnv :=
  { fetchOk := true
    sdpOk := true
    micOk := true
    micTrackCount := 1
    pcId := 1
    dcId := 2
    dcReadyAtConfig := DCReadyState.connecting
    instructionsText := "instructions"
    toolSchemas := [] }

/-- A connect environment whose credential fetch returns a non-2xx response
(e.g. HTTP 500). -/
def fetchFailEnv : ConnectEnv :=
  { okEnv with fetchOk := false }

/- ### Theorems -/

theorem disconnect_def (st : SessionState) :
    disconnect st =
      { st with peerConnection := none, dataChannel := none,
                isConnected := false } := rfl

/-- Helper: the idempotence guard of `connect` — with a transport handle
already held, `connect` returns the state unchanged. -/
theorem connect_noop (env : ConnectEnv) (st : SessionState)
    (h : st.peerConnection.isSome = true) : connect env st = st := by
  unfold connect
  simp [h]

/-- Helper: a `connect` run whose credential fetch and negotiation both
succeed stores the fresh transport and channel handles, marks the session
connected, creates exactly one new transport, and leaves the mute flag
alone. -/
theorem connect_success_fields (env : ConnectEnv) (st : SessionState)
    (hpc : st.peerConnection = none)
    (hf : env.fetchOk = true) (hs : env.sdpOk = true) :
    (connect env st).peerConnection = some env.pcId ∧
    (connect env st).dataChannel = some env.dcId ∧
    (connect env st).isConnected = true ∧
    (connect env st).pcCreated = st.pcCreated + 1 ∧
    (connect env st).isMuted = st.isMuted := by
  unfold connect
  cases hm : env.micOk <;>
    by_cases hd : env.dcReadyAtConfig = DCReadyState.openState <;>
      simp [hpc, hf, hs, hm, hd]

/-- Helper: no branch of `connect` writes the mute flag. -/
theorem connect_isMuted (env : ConnectEnv) (st : SessionState) :
    (connect env st).isMuted = st.isMuted := by
  unfold connect disconnect
  cases hpc : st.peerConnection.isSome <;>
    cases hf : env.fetchOk <;>
      cases hm : env.micOk <;>
        cases hs : env.sdpOk <;>
          by_cases hd : env.dcReadyAtConfig = DCReadyState.openState <;>
            simp [hpc, hf, hm, hs, hd]

/-- C1: On the spec's `set_memory` scenario — an inbound
`response.function_call_arguments.done` event naming the registered
`set_memory` tool — the data-channel message listener only appends the event
to the observable sequence; the registered handler is invoked zero times (the
handler-call log stays empty), not once as the claim requires. -/
theorem c1_set_memory_event_not_dispatched :
    dataChannelMessage 7 connectedState (Except.ok setMemoryCallEvent) =
      Except.ok { connectedState with realtimeEvents :=
        [{ time := 7, source := EventSource.server,
           event := setMemoryCallEvent }] } ∧
    ({ connectedState with realtimeEvents :=
        [{ time := 7, source := EventSource.server,
           event := setMemoryCallEvent }] } : SessionState).handlerCalls =
      [] :=
  ⟨rfl, rfl⟩

/-- C2: Setting the mute flag to true on a connected session stores the
boolean and nothing else — the local audio track attached to the transport
keeps `enabled = true`, so audio is still transmitted while the flag is
true. -/
theorem c2_setIsMuted_leaves_tracks_enabled :
    setIsMuted true connectedState = { connectedState with isMuted := true } ∧
    (setIsMuted true connectedState).localTracks = [true] :=
  ⟨rfl, rfl⟩

/-- C3 counterexample: a malformed (non-JSON) inbound payload makes the
message listener propagate the decode failure — the thrown `SyntaxError`
escapes the handler instead of being treated as a reportable decode error. -/
theorem c3_malformed_payload_throws :
    dataChannelMessage 3 connectedState (Except.error ()) =
      Except.error () := rfl

/-- C3 amended: on any malformed inbound payload the listener's decode
failure propagates uncaught out of the handler; the malformed message is
dropped (no entry is appended) and the session state is left untouched (the
error outcome carries no state update). -/
theorem c3_amended_malformed_payload_dropped (now : ℕ) (st : SessionState)
    (e : Unit) :
    dataChannelMessage now st (Except.error e) = Except.error e := rfl

/-- C4 counterexample: sending an event while the channel's readyState is
`"closed"` returns the session state completely unchanged — nothing is
appended to the observable event sequence, and no error of any kind is
surfaced to the caller (the call is a silent no-op). -/
theorem c4_sendEvent_closed_silent : sendEvent connectedState
    DCReadyState.closed 9 responseCreateEvent = connectedState := by
  unfold sendEvent
  simp

/-- C4 amended: whenever the auxiliary channel is not open (null channel ref
or readyState ≠ "open"), `sendEvent` appends nothing to the observable event
sequence and sends nothing — it silently returns the state unchanged, with no
error surfaced to the caller. -/
theorem c4_amended_sendEvent_not_open_noop (st : SessionState)
    (rs : DCReadyState) (now : ℕ) (event : Json)
    (h : ¬ (st.dataChannel.isSome = true ∧ rs = DCReadyState.openState)) :
    sendEvent st rs now event = st := by
  unfold sendEvent
  exact if_neg h

/-- Witness for C4's amended theorem at a concrete input. -/
theorem c4_amended_witness :
    sendEvent initialState DCReadyState.closed 9 responseCreateEvent =
      initialState :=
  c4_amended_sendEvent_not_open_noop initialState DCReadyState.closed 9
    responseCreateEvent (by decide)

/-- C5: with no transport held, a credential fetch returning a non-2xx
response makes `connect` run the catch-path teardown: the session ends Idle
(`isConnected = false`), no transport handle is retained, and no transport
was ever created (the creation counter is unchanged — the failure precedes
`new RTCPeerConnection()`). -/
theorem c5_connect_fetch_fail (env : ConnectEnv) (st : SessionState)
    (hpc : st.peerConnection = none) (hf : env.fetchOk = false) :
    connect env st = disconnect st ∧
    (connect env st).isConnected = false ∧
    (connect env st).peerConnection = none ∧
    (connect env st).pcCreated = st.pcCreated := by
  have h1 : connect env st = disconnect st := by
    unfold connect
    simp [hpc, hf]
  exact ⟨h1, by rw [h1]; rfl, by rw [h1]; rfl, by rw [h1]; rfl⟩

/-- Witness for C5 at a concrete failing fetch. -/
theorem c5_witness :
    connect fetchFailEnv initialState = disconnect initialState ∧
    (connect fetchFailEnv initialState).isConnected = false ∧
    (connect fetchFailEnv initialState).peerConnection = none ∧
    (connect fetchFailEnv initialState).pcCreated = initialState.pcCreated :=
  c5_connect_fetch_fail fetchFailEnv initialState rfl rfl

/-- C6: at most one live transport: `connect` with a transport handle already
held is the identity (no second transport, no second channel, no state
change); consequently two `connect` calls without an intervening
`disconnect`, the first succeeding, retain exactly the first transport and
create exactly one. -/
theorem c6_connect_single_transport (env env2 : ConnectEnv)
    (st : SessionState) :
    (st.peerConnection.isSome = true → connect env st = st) ∧
    (env.fetchOk = true → env.sdpOk = true →
      (connect env initialState).peerConnection = some env.pcId ∧
      (connect env initialState).pcCreated = 1 ∧
      connect env2 (connect env initialState) = connect env initialState) := by
  refine ⟨connect_noop env st, fun hf hs => ?_⟩
  obtain ⟨h1, _, _, h4, _⟩ := connect_success_fields env initialState rfl hf hs
  refine ⟨h1, by rw [h4]; rfl, ?_⟩
  exact connect_noop env2 _ (by rw [h1]; rfl)

/-- Witness for C6 at a concrete double connect. -/
theorem c6_witness :
    connect okEnv (connect okEnv initialState) = connect okEnv initialState :=
  ((c6_connect_single_transport okEnv okEnv initialState).2 rfl rfl).2.2

/-- C10: `disconnect` nulls the transport and channel handles and clears the
connected flag, and modifies nothing else — in particular the mute flag, the
local tracks, and all recorded sequences are unchanged, and a subsequent
`connect` still leaves the previously set mute value in place. -/
theorem c10_disconnect_frame (st : SessionState) (env : ConnectEnv) :
    (disconnect st).peerConnection = none ∧
    (disconnect st).dataChannel = none ∧
    (disconnect st).isConnected = false ∧
    (disconnect st).isMuted = st.isMuted ∧
    (disconnect st).localTracks = st.localTracks ∧
    (disconnect st).realtimeEvents = st.realtimeEvents ∧
    (disconnect st).channelOut = st.channelOut ∧
    (disconnect st).handlerCalls = st.handlerCalls ∧
    (disconnect st).pcCreated = st.pcCreated ∧
    (connect env (disconnect st)).isMuted = st.isMuted :=
  ⟨rfl, rfl, rfl, rfl, rfl, rfl, rfl, rfl, rfl,
    connect_isMuted env (disconnect st)⟩

/-- Helper: closed form of the per-sample normalization after the clamp. -/
theorem normalizeFrequencySample_eq (x : ℚ) :
    normalizeFrequencySample x =
      ((max (-100) (min (-30) x) + 100) / 70) ^ 2 := by
  unfold normalizeFrequencySample
  norm_num

/-- C8: amplitude normalization is monotone on `[-100, -30]`, clamps to `0`
below `-100` and to `1` above `-30`, equals `((db + 100) / 70)²` in range,
and always lands in `[0, 1]`. -/
theorem c8_normalizeFrequency_monotone (x y : ℚ) :
    (-100 ≤ x → x ≤ -30 → -100 ≤ y → y ≤ -30 → x < y →
      normalizeFrequencySample x ≤ normalizeFrequencySample y) ∧
    (x ≤ -100 → normalizeFrequencySample x = 0) ∧
    (-30 ≤ x → normalizeFrequencySample x = 1) ∧
    (-100 ≤ x → x ≤ -30 →
      normalizeFrequencySample x = ((x - (-100)) / 70) ^ 2) ∧
    (0 ≤ normalizeFrequencySample x ∧ normalizeFrequencySample x ≤ 1) := by
  have hin : ∀ z : ℚ, -100 ≤ z → z ≤ -30 →
      normalizeFrequencySample z = ((z + 100) / 70) ^ 2 := by
    intro z h1 h2
    rw [normalizeFrequencySample_eq, min_eq_right h2, max_eq_right h1]
  refine ⟨?_, ?_, ?_, ?_, ?_⟩
  · intro hx1 hx2 hy1 hy2 hxy
    rw [hin x hx1 hx2, hin y hy1 hy2]
    have h0 : (0 : ℚ) ≤ (x + 100) / 70 := by linarith
    have hle : (x + 100) / 70 ≤ (y + 100) / 70 := by linarith
    exact pow_le_pow_left₀ h0 hle 2
  · intro hx
    rw [normalizeFrequencySample_eq,
        min_eq_right (le_trans hx (by norm_num)), max_eq_left hx]
    norm_num
  · intro hx
    rw [normalizeFrequencySample_eq, min_eq_left hx,
        max_eq_right (by norm_num : (-100 : ℚ) ≤ -30)]
    norm_num
  · intro h1 h2
    rw [hin x h1 h2]
    norm_num
  · rw [normalizeFrequencySample_eq]
    have hlo : (-100 : ℚ) ≤ max (-100) (min (-30) x) := le_max_left _ _
    have hhi : max (-100 : ℚ) (min (-30) x) ≤ -30 :=
      max_le (by norm_num) (min_le_left _ _)
    constructor
    · positivity
    · have h0 : (0 : ℚ) ≤ (max (-100) (min (-30) x) + 100) / 70 := by linarith
      have h1 : (max (-100 : ℚ) (min (-30) x) + 100) / 70 ≤ 1 := by linarith
      exact pow_le_one₀ h0 h1

/-- Witness for C8 at concrete decibel values. -/
theorem c8_witness :
    normalizeFrequencySample (-65) ≤ normalizeFrequencySample (-44) ∧
    normalizeFrequencySample (-120) = 0 ∧
    normalizeFrequencySample (-10) = 1 :=
  ⟨(c8_normalizeFrequency_monotone (-65) (-44)).1 (by norm_num) (by norm_num)
      (by norm_num) (by norm_num) (by norm_num),
   (c8_normalizeFrequency_monotone (-120) 0).2.1 (by norm_num),
   (c8_normalizeFrequency_monotone (-10) 0).2.2.1 (by norm_num)⟩

/-- Helper: reading the `i`-th element of a mapped index range. -/
theorem getD_map_range {α : Type} (f : ℕ → α) (d : α) {i m : ℕ}
    (h : i < m) : ((List.range m).map f).getD i d = f i := by
  have hlen : i < ((List.range m).map f).length := by simpa using h
  rw [List.getD_eq_getElem _ _ hlen]
  simp

/-- C9: upsampling preserves endpoints — with `n ≥ 2` input samples and
`m > n` output buckets, the interpolation branch of `normalizeArray` returns
the first input sample at output index `0` and the last input sample at
output index `m - 1`. -/
theorem c9_upsample_endpoints (data : List ℚ) (m : ℕ)
    (h2 : 2 ≤ data.length) (hm : data.length < m) :
    (normalizeArray data m false).getD 0 0 = data.getD 0 0 ∧
    (normalizeArray data m false).getD (m - 1) 0 =
      data.getD (data.length - 1) 0 := by
  have hnm : ¬ m ≤ data.length := not_le.mpr hm
  have hm0 : 0 < m := by omega
  have hm1 : m - 1 < m := by omega
  unfold normalizeArray normalizeArrayUp
  rw [if_neg hnm]
  constructor
  · rw [getD_map_range _ _ hm0]
    dsimp only
    have hle : ¬ data.length ≤ (0 : ℕ) := by omega
    norm_num [hle]
  · rw [getD_map_range _ _ hm1]
    dsimp only
    have h1m : 1 ≤ m := by omega
    have hcast : ((m - 1 : ℕ) : ℚ) = (m : ℚ) - 1 := by
      rw [Nat.cast_sub h1m, Nat.cast_one]
    have hne : ((m : ℚ) - 1) ≠ 0 := by
      have : (1 : ℚ) < (m : ℚ) := by exact_mod_cast (by omega : 1 < m)
      linarith
    have hidx : ((m - 1 : ℕ) : ℚ) * ((data.length : ℚ) - 1) / ((m : ℚ) - 1) =
        (data.length : ℚ) - 1 := by
      rw [hcast, mul_comm, mul_div_assoc, div_self hne, mul_one]
    rw [hidx]
    have h1n : 1 ≤ data.length := by omega
    have hn1 : ((data.length : ℚ) - 1) = ((data.length - 1 : ℕ) : ℚ) := by
      rw [Nat.cast_sub h1n, Nat.cast_one]
    rw [hn1, Int.floor_natCast, Int.ceil_natCast, Int.toNat_natCast]
    have hlast : ¬ data.length ≤ data.length - 1 := by omega
    simp [hlast]

/-- Witness for C9 on a concrete three-sample buffer upsampled to five. -/
theorem c9_witness :
    (normalizeArray [4, 9, 6] 5 false).getD 0 0 = ([4, 9, 6] : List ℚ).getD 0 0 ∧
    (normalizeArray [4, 9, 6] 5 false).getD (5 - 1) 0 =
      ([4, 9, 6] : List ℚ).getD (([4, 9, 6] : List ℚ).length - 1) 0 :=
  c9_upsample_endpoints [4, 9, 6] 5 (by norm_num) (by norm_num)

/-- Helper: `absMax` unfolds on a cons cell. -/
theorem absMax_cons (a : ℚ) (l : List ℚ) :
    absMax (a :: l) = max |a| (absMax l) := rfl

/-- Helper: `absMax` is nonnegative. -/
theorem absMax_nonneg (data : List ℚ) : 0 ≤ absMax data := by
  induction data with
  | nil => simp [absMax]
  | cons a l ih => rw [absMax_cons]; exact le_max_of_le_right ih

/-- Helper: every element's absolute value is bounded by `absMax`. -/
theorem mem_le_absMax (data : List ℚ) : ∀ x ∈ data, |x| ≤ absMax data := by
  induction data with
  | nil => intro x hx; cases hx
  | cons a l ih =>
    intro x hx
    rw [absMax_cons]
    rcases List.mem_cons.mp hx with h | h
    · rw [h]; exact le_max_left _ _
    · exact le_trans (ih x h) (le_max_right _ _)

/-- Helper: the defaulted read `data.getD j 0` is bounded by `absMax` at
every index. -/
theorem abs_getD_le_absMax (data : List ℚ) (j : ℕ) :
    |data.getD j 0| ≤ absMax data := by
  by_cases hj : j < data.length
  · rw [List.getD_eq_getElem _ _ hj]
    exact mem_le_absMax data _ (List.getElem_mem hj)
  · rw [List.getD_eq_default _ _ (le_of_not_lt hj)]
    simpa using absMax_nonneg data

/-- Helper: one unfolding step of the averaging-mode downsampling loop. -/
theorem downsampleLoop_succ_false (data : List ℚ) (m i : ℕ) :
    downsampleLoop data m false (i + 1) =
      (Function.update (downsampleLoop data m false i).1
          (i * m / data.length)
          ((downsampleLoop data m false i).1 (i * m / data.length) +
            |data.getD i 0|),
       Function.update (downsampleLoop data m false i).2
          (i * m / data.length)
          ((downsampleLoop data m false i).2 (i * m / data.length) + 1)) := by
  simp [downsampleLoop]

/-- Helper: after processing the first `i` input indices in averaging mode,
the loop's `count` entry at `k` is the number of already-processed indices
assigned to bucket `k`, and its `result` entry is the sum of their absolute
sample values. -/
theorem downsampleLoop_avg_spec (data : List ℚ) (m k : ℕ) : ∀ i : ℕ,
    (downsampleLoop data m false i).2 k =
      ((Finset.range i).filter (fun j => j * m / data.length = k)).card ∧
    (downsampleLoop data m false i).1 k =
      ∑ j ∈ (Finset.range i).filter (fun j => j * m / data.length = k),
        |data.getD j 0| := by
  intro i
  induction i with
  | zero => simp [downsampleLoop]
  | succ i ih =>
    obtain ⟨ihc, ihs⟩ := ih
    rw [downsampleLoop_succ_false]
    dsimp only
    rw [Function.update_apply, Function.update_apply, Finset.range_succ,
        Finset.filter_insert]
    have hnot : i ∉ (Finset.range i).filter
        (fun j => j * m / data.length = k) := by simp
    by_cases hk : i * m / data.length = k
    · rw [hk, if_pos rfl, if_pos rfl, if_pos rfl,
          Finset.card_insert_of_not_mem hnot, Finset.sum_insert hnot,
          ihc, ihs]
      exact ⟨rfl, add_comm _ _⟩
    · have hk' : ¬ k = i * m / data.length := fun h => hk h.symm
      rw [if_neg hk, if_neg hk', if_neg hk']
      exact ⟨ihc, ihs⟩

/-- Helper: with `1 ≤ m ≤ n`, every bucket `k < m` receives at least one
input index (witness `⌈k·n/m⌉`). -/
theorem bucket_nonempty (n m k : ℕ) (hm : 1 ≤ m) (hmn : m ≤ n)
    (hk : k < m) : (bucket n m k).Nonempty := by
  have hm0 : 0 < m := hm
  refine ⟨(k * n + (m - 1)) / m, ?_⟩
  have hub : (k * n + (m - 1)) / m * m ≤ k * n + (m - 1) :=
    Nat.div_mul_le_self _ _
  have hdm := Nat.div_add_mod (k * n + (m - 1)) m
  have hmod : (k * n + (m - 1)) % m ≤ m - 1 :=
    Nat.le_pred_of_lt (Nat.mod_lt _ hm0)
  have h1 : k * n + (m - 1) ≤ m * ((k * n + (m - 1)) / m) + (m - 1) := by
    conv_lhs => rw [← hdm]
    exact Nat.add_le_add_left hmod _
  have hlb : k * n ≤ (k * n + (m - 1)) / m * m := by
    rw [Nat.mul_comm ((k * n + (m - 1)) / m) m]
    exact Nat.le_of_add_le_add_right h1
  have hm1n : m - 1 < n := by omega
  have h3 : (k * n + (m - 1)) / m * m < (k + 1) * n :=
    calc (k * n + (m - 1)) / m * m ≤ k * n + (m - 1) := hub
      _ < k * n + n := Nat.add_lt_add_left hm1n _
      _ = (k + 1) * n := by ring
  have h6 : (k * n + (m - 1)) / m * m < m * n :=
    lt_of_lt_of_le h3 (mul_le_mul_right' hk n)
  have h4 : (k * n + (m - 1)) / m < n := by
    have h7 : m * ((k * n + (m - 1)) / m) < m * n := by
      rwa [Nat.mul_comm] at h6
    exact Nat.lt_of_mul_lt_mul_left h7
  have hdiv : (k * n + (m - 1)) / m * m / n = k :=
    Nat.div_eq_of_lt_le hlb h3
  simp only [bucket, Finset.mem_filter, Finset.mem_range]
  exact ⟨h4, hdiv⟩

/-- Helper: the `k`-th averaging-mode output is the bucket sum over the
bucket count. -/
theorem normalizeArray_avg_getD (data : List ℚ) (m k : ℕ)
    (hmn : m ≤ data.length) (hk : k < m) :
    (normalizeArray data m false).getD k 0 =
      (∑ j ∈ bucket data.length m k, |data.getD j 0|) /
        ((bucket data.length m k).card : ℚ) := by
  unfold normalizeArray normalizeArrayDown
  rw [if_pos hmn]
  dsimp only
  rw [if_neg (by simp)]
  rw [getD_map_range _ _ hk]
  obtain ⟨hc, hs⟩ := downsampleLoop_avg_spec data m k data.length
  rw [hc, hs]
  rfl

/-- C7: averaging-mode downsampling with `1 ≤ m ≤ n` produces exactly `m`
output values; each input index `i` is assigned to bucket `⌊i·m/n⌋`; each
bucket is nonempty, each output equals its bucket's mean of absolute sample
values, and every output lies in `[0, absMax data]`. -/
theorem c7_normalizeArray_avg (data : List ℚ) (m : ℕ)
    (hm : 1 ≤ m) (hmn : m ≤ data.length) :
    (normalizeArray data m false).length = m ∧
    ∀ k, k < m →
      (bucket data.length m k).Nonempty ∧
      (normalizeArray data m false).getD k 0 =
        (∑ j ∈ bucket data.length m k, |data.getD j 0|) /
          ((bucket data.length m k).card : ℚ) ∧
      0 ≤ (normalizeArray data m false).getD k 0 ∧
      (normalizeArray data m false).getD k 0 ≤ absMax data := by
  constructor
  · unfold normalizeArray normalizeArrayDown
    rw [if_pos hmn]
    dsimp only
    rw [if_neg (by simp)]
    simp
  · intro k hk
    have hne := bucket_nonempty data.length m k hm hmn hk
    have heq := normalizeArray_avg_getD data m k hmn hk
    have hcard : 0 < (bucket data.length m k).card := Finset.card_pos.mpr hne
    have hcq : (0 : ℚ) < ((bucket data.length m k).card : ℚ) := by
      exact_mod_cast hcard
    refine ⟨hne, heq, ?_, ?_⟩
    · rw [heq]
      exact div_nonneg (Finset.sum_nonneg fun j _ => abs_nonneg _)
        (le_of_lt hcq)
    · rw [heq, div_le_iff₀ hcq]
      calc (∑ j ∈ bucket data.length m k, |data.getD j 0|) ≤
          (bucket data.length m k).card • absMax data :=
            Finset.sum_le_card_nsmul _ _ _
              (fun j _ => abs_getD_le_absMax data j)
        _ = absMax data * ((bucket data.length m k).card : ℚ) := by
            rw [nsmul_eq_mul]; ring

/-- Witness for C7 on the concrete buffer `[1, -2, 3]` downsampled to two
buckets. -/
theorem c7_witness :
    (normalizeArray [1, -2, 3] 2 false).length = 2 ∧
    (normalizeArray [1, -2, 3] 2 false).getD 0 0 ≤ absMax [1, -2, 3] := by
  have h := c7_normalizeArray_avg [1, -2, 3] 2 (by norm_num) (by norm_num)
  exact ⟨h.1, (h.2 0 (by norm_num)).2.2.2⟩
